/-
Verification of the GEM-EXTRACTER task-distribution and claim-coordination
subsystem: a shallow embedding in Lean 4 of the Work Store operations
(producer batch select-and-mark, worker claim, producer revert), the Redis
list queue transport, the worker per-task processing trace, and the status
aggregator document helpers, with theorems about their behaviour.
-/
import Mathlib

namespace GemExtracter

/-! ## Work Store data model

A row of the `bids` table, with the columns touched by the producer and
consumer code paths (src/workers/producer.py, src/workers/consumer.py).
`processing_started_ts` models the SQL `NOW()` timestamp as a natural
number supplied by the caller. -/

structure BidRow where
  id : Nat
  bid_number : String
  detail_url : String
  page : Nat
  todayscan : Nat
  status : String
  locked_by : Option String
  processing_started_ts : Option Nat
  attempts : Nat
deriving Repr, DecidableEq

/-- The `todayscan` marker value the producer writes when it marks a row
queued (`QUEUED_TODAYSCAN = 3` in src/workers/producer.py). -/
def QUEUED_TODAYSCAN : Nat := 3

/-- The WHERE-condition of the consumer's claim UPDATE
(src/workers/consumer.py, `attempt_claim_by_bid`):
`bid_number = %s AND todayscan = 0 AND status IN ('new','queued','failed')`. -/
def claimMatches (bid : String) (r : BidRow) : Bool :=
  r.bid_number == bid && r.todayscan == 0 &&
    (r.status == "new" || r.status == "queued" || r.status == "failed")

/-- The SET-clause of the consumer's claim UPDATE: `status = 'processing',
locked_by = owner, processing_started_ts = NOW(), attempts = attempts + 1`. -/
def claimUpdate (owner : String) (now : Nat) (r : BidRow) : BidRow :=
  { r with status := "processing", locked_by := some owner,
           processing_started_ts := some now, attempts := r.attempts + 1 }

/-- `attempt_claim_by_bid` (src/workers/consumer.py): run the conditional
UPDATE over the table, commit, and if at least one row was affected re-read
the first row with the given `bid_number`; otherwise return `none`.
Returns the post-commit table and the returned row. -/
def attempt_claim_by_bid (table : List BidRow) (bid owner : String)
    (now : Nat) : List BidRow × Option BidRow :=
  let table' := table.map fun r =>
    if claimMatches bid r then claimUpdate owner now r else r
  let rowcount := (table.filter (claimMatches bid)).length
  if rowcount = 0 then (table', none)
  else (table', table'.find? fun r => r.bid_number == bid)

/-- A sequence of workers each running `attempt_claim_by_bid` once on the
same table, one after the other (the UPDATE is atomic, so any interleaving
of the racing claims is equivalent to some sequential order). Returns the
final table and each worker's claim result, in order. -/
def claimSeq (owners : List String) (table : List BidRow) (bid : String)
    (now : Nat) : List BidRow × List (Option BidRow) :=
  match owners with
  | [] => (table, [])
  | w :: ws =>
    let step := attempt_claim_by_bid table bid w now
    let rest := claimSeq ws step.1 bid now
    (rest.1, step.2 :: rest.2)

/-- Selection step of `fetch_and_mark_batch` (src/workers/producer.py):
`SELECT id, bid_number, detail_url, page FROM bids WHERE todayscan = 0
LIMIT batch_size FOR UPDATE`, modelled as the first `batch_size` rows of
the table satisfying `todayscan = 0`. -/
def selectBatch (table : List BidRow) (batch_size : Nat) : List BidRow :=
  (table.filter fun r => r.todayscan == 0).take batch_size

/-- The per-row effect of the producer's marking UPDATE:
`SET todayscan = QUEUED_TODAYSCAN, status = 'queued'`. -/
def markQueued (r : BidRow) : BidRow :=
  { r with todayscan := QUEUED_TODAYSCAN, status := "queued" }

/-- `fetch_and_mark_batch` (src/workers/producer.py): select up to
`batch_size` rows with `todayscan = 0`; if none, roll back and return the
empty list; else update exactly the rows whose `id` is among the selected
ids to queued, commit, and return the selected (pre-update) rows. -/
def fetch_and_mark_batch (table : List BidRow) (batch_size : Nat) :
    List BidRow × List BidRow :=
  let rows := selectBatch table batch_size
  if rows = [] then (table, [])
  else
    let ids := rows.map (·.id)
    (table.map (fun r => if ids.contains r.id then markQueued r else r), rows)

/-- `revert_rows_to_new` (src/workers/producer.py): if pushing to Redis
failed, `UPDATE bids SET todayscan = 0, status = 'new' WHERE id IN ids`
(a no-op when `ids` is empty). -/
def revert_rows_to_new (table : List BidRow) (ids : List Nat) : List BidRow :=
  if ids = [] then table
  else table.map fun r =>
    if ids.contains r.id then { r with todayscan := 0, status := "new" } else r

/-- One iteration of the producer's `run_loop` (src/workers/producer.py)
in the branch where the publish to Redis fails: `fetch_and_mark_batch`,
then `revert_rows_to_new` on the selected ids. Returns the final table. -/
def producer_iter_failed_publish (table : List BidRow) (batch_size : Nat) :
    List BidRow :=
  let (t1, rows) := fetch_and_mark_batch table batch_size
  if rows = [] then t1
  else revert_rows_to_new t1 (rows.map (·.id))

/-! ## Queue Transport (list mode)

src/utils/redis_helpers.py uses a Redis list: the producer does `LPUSH`
(prepend at the left end) and the consumer does `BRPOP` / `RPOP` (remove
from the right end). The Redis list is modelled as a Lean list whose head
is the Redis left end. Task payloads are carried as `TaskDescriptor`
values; `json.dumps` / `json.loads` round-trip on these flat dicts, so
serialization is modelled as the identity embedding of the descriptor. -/

structure TaskDescriptor where
  id : Option Nat
  bid_number : String
  detail_url : String
  page : Nat
deriving Repr, DecidableEq

/-- `LPUSH`: prepend a payload at the left end of the Redis list. -/
def lpush (q : List TaskDescriptor) (t : TaskDescriptor) : List TaskDescriptor :=
  t :: q

/-- `enqueue_batch` (src/utils/redis_helpers.py): `LPUSH` each task of the
batch in order (a pipelined sequence of `lpush` calls). -/
def enqueue_batch (q : List TaskDescriptor) (tasks : List TaskDescriptor) :
    List TaskDescriptor :=
  tasks.foldl lpush q

/-- `pop_task` with `block=True` (src/utils/redis_helpers.py): `BRPOP`
removes and returns the payload at the right end; when the queue stays
empty for the whole timeout, `BRPOP` returns nothing and `pop_task`
returns `None`. Returns the popped task (if any) and the rest of
the queue. -/
def pop_task (q : List TaskDescriptor) :
    Option TaskDescriptor × List TaskDescriptor :=
  match q.getLast? with
  | none => (none, q)
  | some t => (some t, q.dropLast)

/-- Repeatedly `pop_task` until the queue is empty: the sequence of
descriptors a single consumer would receive, in delivery order. -/
def popAll (q : List TaskDescriptor) : List TaskDescriptor :=
  q.reverse

/-! ## Worker per-task processing trace

`process_task` (src/workers/consumer.py) drives one task through
claim → download → parse → persist. Its externally-visible effects are the
sequence of external calls it makes (PDF download attempt, parser
invocation, and the `db_helpers` terminal writes); its control flow is
determined by the outcome of each effectful step, which we pass in as an
environment. An uncaught Python exception is modelled as returning
`some msg` in the second component; `run_worker`'s outer
`except Exception` catches it, logs, sleeps, and continues without any
further Work Store call. -/

inductive WorkerEvent where
  /-- `download_pdf` was invoked -/
  | download
  /-- `pdf_parser.extract_pdf_to_json` was invoked -/
  | parseAttempt
  /-- `db_helpers.mark_failed(bid_id, reason, ...)` -/
  | markFailed (reason : String)
  /-- `db_helpers.mark_done(bid_id, ...)` -/
  | markDone
  /-- `db_helpers.upsert_final_bid(...)` -/
  | upsertFinalBid
deriving Repr, DecidableEq

/-- Outcome of the `pdf_parser.extract_pdf_to_json` call. -/
inductive ParserOutcome where
  /-- the call raised an exception -/
  | raises (e : String)
  /-- the call returned something that is not a dict -/
  | notDict
  /-- the call returned a dict with the given `ok` flag and message -/
  | result (ok : Bool) (msg : String)
deriving Repr, DecidableEq

/-- Outcome of the persist stage (`mark_done` then `upsert_final_bid`). -/
inductive PersistOutcome where
  | ok
  /-- `db_helpers.mark_done` raised -/
  | markDoneRaises (e : String)
  /-- `mark_done` succeeded, then `upsert_final_bid` raised -/
  | upsertRaises (e : String)
deriving Repr, DecidableEq

/-- Environment of one `process_task` run: the result of the claim and the
outcome of each subsequent effectful step, in program order. -/
structure TaskEnv where
  /-- result of `attempt_claim_by_bid` -/
  claimResult : Option BidRow
  /-- `os.makedirs(PDF_FOLDER)` in `safe_filename_for_bid` succeeds -/
  pdfDirOk : Bool
  /-- `download_pdf` returns ok (it catches its own exceptions) -/
  downloadOk : Bool
  downloadMsg : String
  /-- `from workers import parser` succeeds -/
  parserImportOk : Bool
  /-- `os.makedirs(os.path.dirname(json_out_path))` succeeds -/
  outDirOk : Bool
  parserOutcome : ParserOutcome
  persistOutcome : PersistOutcome
deriving Repr, DecidableEq

/-- `process_task` (src/workers/consumer.py): the list of external calls
made, and `some e` when an exception escapes the function uncaught.
Mirrors the source's control flow stage by stage. -/
def process_task (env : TaskEnv) : List WorkerEvent × Option String :=
  match env.claimResult with
  | none => ([], none)
  | some _ =>
    if !env.pdfDirOk then ([], some "makedirs_pdf_folder")
    else if !env.downloadOk then
      ([.download, .markFailed ("download_error:" ++ env.downloadMsg)], none)
    else if !env.parserImportOk then
      ([.download, .markFailed "parser_missing"], none)
    else if !env.outDirOk then ([.download], some "makedirs_output_folder")
    else
      match env.parserOutcome with
      | .raises e =>
        ([.download, .parseAttempt, .markFailed ("parser_exception:" ++ e)], none)
      | .notDict =>
        ([.download, .parseAttempt, .markFailed "parser_bad_result"], none)
      | .result ok msg =>
        if !ok then
          ([.download, .parseAttempt, .markFailed ("parser_failed:" ++ msg)], none)
        else
          match env.persistOutcome with
          | .ok => ([.download, .parseAttempt, .markDone, .upsertFinalBid], none)
          | .markDoneRaises e =>
            ([.download, .parseAttempt, .markFailed ("db_update_exception:" ++ e)], none)
          | .upsertRaises e =>
            ([.download, .parseAttempt, .markDone,
              .markFailed ("db_update_exception:" ++ e)], none)

/-- The external calls made during one `run_worker` loop body around
`process_task`: the outer `except Exception` branch of `run_worker`
(src/workers/consumer.py) only logs and sleeps, so an uncaught exception
adds no further call and the loop continues. -/
def run_worker_step_calls (env : TaskEnv) : List WorkerEvent :=
  (process_task env).1

/-! ## Status Aggregator (src/utils/status_helpers.py)

The shared status document is a JSON object. We model JSON values, Python
`dict.get` / assignment (assignment keeps insertion order for an existing
key, appends otherwise), and the file on disk as either missing,
unparsable, or a parsed JSON value. -/

inductive JVal where
  | jnum (n : Int)
  | jstr (s : String)
  | jbool (b : Bool)
  | jnull
  | jarr (xs : List JVal)
  | jobj (fields : List (String × JVal))

/-- A JSON object's fields. -/
abbrev JDict := List (String × JVal)

/-- Python `d.get(k)` / `d[k]` lookup. -/
def dictGet (d : JDict) (k : String) : Option JVal :=
  (d.find? fun p => p.1 == k).map (·.2)

/-- Python `d[k] = v`: overwrite in place if the key exists (keys of a
Python dict are unique, so at most one entry holds `k`), else append at
the end, preserving insertion order. -/
def dictSet (d : JDict) (k : String) (v : JVal) : JDict :=
  match d with
  | [] => [(k, v)]
  | p :: rest => if p.1 == k then (k, v) :: rest else p :: dictSet rest k v

/-- State of the status file on disk. -/
inductive FileState where
  | missing
  | unparsable
  | parsed (v : JVal)

/-- `read_status` (src/utils/status_helpers.py): `{}` when the file is
missing; the parsed JSON when it parses; `{}` when reading or parsing
raises. -/
def read_status (fs : FileState) : JVal :=
  match fs with
  | .missing => .jobj []
  | .unparsable => .jobj []
  | .parsed v => v

/-- The `last_updated` stamp `_safe_write` adds before persisting
(`datetime.now().astimezone().isoformat()`, supplied here as `now`). -/
def stampLastUpdated (now : String) (d : JDict) : JDict :=
  dictSet d "last_updated" (.jstr now)

/-- `increment(key, delta)` (src/utils/status_helpers.py): the document
handed to `_safe_write`, i.e. `s[key] = s.get(key, 0) + delta` followed by
the `last_updated` stamp. `none` models the Python call raising: the file
parsed to a non-object, or the existing value under `key` is not a
number. -/
def increment_written_doc (fs : FileState) (key : String) (delta : Int)
    (now : String) : Option JDict :=
  match read_status fs with
  | .jobj d =>
    match dictGet d key with
    | none => some (stampLastUpdated now (dictSet d key (.jnum delta)))
    | some (.jnum n) =>
      some (stampLastUpdated now (dictSet d key (.jnum (n + delta))))
    | some _ => none
  | _ => none

/-- `if 'ts' not in item: item['ts'] = now` in `push_recent`. -/
def stampTs (now : String) (item : JDict) : JDict :=
  match dictGet item "ts" with
  | none => dictSet item "ts" (.jstr now)
  | some _ => item

/-- `push_recent(item, max_items)` (src/utils/status_helpers.py): the
document handed to `_safe_write`. `rec = s.get("recent", [])`, stamp `ts`,
`rec.insert(0, item)`, `s['recent'] = rec[:max_items]`, then the
`last_updated` stamp. `none` models the call raising (non-object document,
or a `recent` value that is not a list). -/
def push_recent_written_doc (fs : FileState) (item : JDict) (max_items : Nat)
    (tsNow now : String) : Option JDict :=
  match read_status fs with
  | .jobj d =>
    match dictGet d "recent" with
    | none =>
      some (stampLastUpdated now
        (dictSet d "recent" (.jarr (([JVal.jobj (stampTs tsNow item)]).take max_items))))
    | some (.jarr xs) =>
      some (stampLastUpdated now
        (dictSet d "recent" (.jarr ((JVal.jobj (stampTs tsNow item) :: xs).take max_items))))
    | some _ => none
  | _ => none

/-! ### `_atomic_write` retry loop

Each of the `_RETRY_ATTEMPTS = 12` loop iterations creates a temp file,
writes, and tries `os.replace`; any failure cleans up, sleeps, and
retries. When all attempts fail, the code falls back to a plain
`open(path, "w")` overwrite of the target — which truncates the target in
place, so a concurrent reader can observe a partially-written document on
that path. -/

inductive AttemptOutcome where
  /-- `mkstemp` / the temp-file write raised -/
  | tmpFail
  /-- `os.replace` raised (e.g. `PermissionError`, target locked) -/
  | replaceFail
  /-- the temp write and `os.replace` both succeeded -/
  | ok
deriving Repr, DecidableEq

/-- How a write became visible at the target path. -/
inductive WriteEvent where
  /-- atomic `os.replace` of a fully-written temp file -/
  | atomicReplace
  /-- plain `open(path, "w")` overwrite (non-atomic, truncates in place) -/
  | plainOverwrite
deriving Repr, DecidableEq

/-- `_RETRY_ATTEMPTS` (src/utils/status_helpers.py). -/
def RETRY_ATTEMPTS : Nat := 12

/-- The retry loop of `_atomic_write` over the remaining attempts'
outcomes, then the last-resort plain overwrite (whose own success is
`overwriteOk`). Returns the function's boolean result and the write
events that touched the target path. -/
def atomicWriteLoop (outcomes : List AttemptOutcome) (overwriteOk : Bool) :
    Bool × List WriteEvent :=
  match outcomes with
  | [] => (overwriteOk, [.plainOverwrite])
  | o :: rest =>
    match o with
    | .ok => (true, [.atomicReplace])
    | _ => atomicWriteLoop rest overwriteOk

/-- `_atomic_write` (src/utils/status_helpers.py): the loop runs
`RETRY_ATTEMPTS` times; `outcomes i` is attempt `i`'s outcome. -/
def _atomic_write (outcomes : Nat → AttemptOutcome) (overwriteOk : Bool) :
    Bool × List WriteEvent :=
  atomicWriteLoop ((List.range RETRY_ATTEMPTS).map outcomes) overwriteOk

/-- Whether a worker event is a terminal Work Store write
(`mark_failed` or `mark_done`). -/
def isTerminalWrite : WorkerEvent → Bool
  | .markFailed _ => true
  | .markDone => true
  | _ => false

/-! ## Concrete inputs used in the theorems below -/

/-- A freshly discovered work item: `todayscan = 0`, `status = 'new'`. -/
def freshRow : BidRow :=
  { id := 1, bid_number := "B1", detail_url := "http://x/1.pdf", page := 1,
    todayscan := 0, status := "new", locked_by := none,
    processing_started_ts := none, attempts := 0 }

/-- A retryable failed work item: `todayscan = 0`, `status = 'failed'`
(the state `mark_failed` leaves after a claim made on a `todayscan = 0`
row, which never touches `todayscan`). -/
def failedRow : BidRow := { freshRow with status := "failed", attempts := 2 }

/-- A `process_task` environment where the claim succeeded and every
later step goes well, except that `os.makedirs` for the OUTPUT folder
raises (e.g. a permission error). -/
def envOutDirFails : TaskEnv :=
  { claimResult := some freshRow, pdfDirOk := true, downloadOk := true,
    downloadMsg := "", parserImportOk := true, outDirOk := false,
    parserOutcome := .result true "", persistOutcome := .ok }

/-- A `process_task` environment where the claim succeeded and the PDF
download fails. -/
def envDownloadFails : TaskEnv :=
  { claimResult := some freshRow, pdfDirOk := true, downloadOk := false,
    downloadMsg := "timeout", parserImportOk := true, outDirOk := true,
    parserOutcome := .result true "", persistOutcome := .ok }

/-- A `process_task` environment for a descriptor whose claim was
rejected. -/
def envClaimRejected : TaskEnv :=
  { claimResult := none, pdfDirOk := true, downloadOk := true,
    downloadMsg := "", parserImportOk := true, outDirOk := true,
    parserOutcome := .result true "", persistOutcome := .ok }

/-- Attempt outcomes for `_atomic_write` where `os.replace` fails on
every try (the target stays locked). -/
def allReplaceFail : Nat → AttemptOutcome := fun _ => .replaceFail

/-- Attempt outcomes for `_atomic_write` where the first try succeeds. -/
def allOk : Nat → AttemptOutcome := fun _ => .ok

/-- A recent-event item as pushed by the workers. -/
def item0 : JDict := [("bid_number", .jstr "B1")]

/-! ## Theorems -/

/-- C1: the claim asserts that `attempt_claim_by_bid` succeeds on every
row whose business key matches and whose status is in
`{new, queued, failed}` — in particular on a row the Producer has just
transitioned to queued. The code's UPDATE additionally requires
`todayscan = 0`, while `fetch_and_mark_batch` marks queued rows with
`todayscan = QUEUED_TODAYSCAN = 3`: starting from a fresh row, one
producer pass leaves the table with the single row
`(todayscan = 3, status = 'queued')`, and the claim on that very row
returns nothing and changes nothing. -/
theorem C1_producer_queued_row_is_not_claimable :
    (fetch_and_mark_batch [freshRow] 1).1 = [markQueued freshRow] ∧
    (markQueued freshRow).status = "queued" ∧
    (markQueued freshRow).bid_number = "B1" ∧
    attempt_claim_by_bid [markQueued freshRow] "B1" "w1" 0 =
      ([markQueued freshRow], none) := by
  decide

/-- A claim attempt whose WHERE-condition matches no row of the table
commits an identity UPDATE and returns `none`. -/
lemma attempt_claim_of_no_match {table : List BidRow} {bid : String}
    (owner : String) (now : Nat)
    (h : ∀ r ∈ table, claimMatches bid r = false) :
    attempt_claim_by_bid table bid owner now = (table, none) := by
  unfold attempt_claim_by_bid
  have hfilter : table.filter (claimMatches bid) = [] :=
    List.filter_eq_nil_iff.mpr (by simpa using h)
  have hmap : (table.map fun r =>
      if claimMatches bid r then claimUpdate owner now r else r) = table := by
    have := List.map_congr_left (l := table)
      (f := fun r => if claimMatches bid r then claimUpdate owner now r else r)
      (g := id) (fun r hr => by simp [h r hr])
    simpa using this
  simp [hfilter, hmap]

/-- A successful claim on a single-row table whose row matches: the row is
updated and returned. -/
lemma attempt_claim_single_success {r : BidRow} {bid : String}
    (owner : String) (now : Nat) (hmatch : claimMatches bid r = true) :
    attempt_claim_by_bid [r] bid owner now =
      ([claimUpdate owner now r], some (claimUpdate owner now r)) := by
  have hb : (r.bid_number == bid) = true := by
    unfold claimMatches at hmatch
    exact (Bool.and_eq_true _ _).mp ((Bool.and_eq_true _ _).mp hmatch).1 |>.1
  unfold attempt_claim_by_bid
  simp [hmatch, List.filter, claimUpdate, hb]

/-- A row just claimed has `status = 'processing'` and no longer matches
the claim's WHERE-condition. -/
lemma claimMatches_claimUpdate (bid owner : String) (now : Nat) (r : BidRow) :
    claimMatches bid (claimUpdate owner now r) = false := by
  simp [claimMatches, claimUpdate]

/-- Once the single row is claimed, every further claim in the sequence
returns `none` and leaves the table unchanged. -/
lemma claimSeq_all_rejected (ws : List String) (bid : String) (now : Nat)
    (r : BidRow) (h : claimMatches bid r = false) :
    claimSeq ws [r] bid now = ([r], List.replicate ws.length none) := by
  induction ws with
  | nil => simp [claimSeq]
  | cons w ws ih =>
    have hstep := @attempt_claim_of_no_match [r] bid w now
      (by intro x hx; simp at hx; subst hx; exact h)
    simp [claimSeq, hstep, ih, List.replicate_succ]

/-- C2: mutual exclusion of claims. Seed a single-row table with a
claimable queued item (`status = 'queued'`, `todayscan = 0`, matching
business key). If `N = 1 + ws.length` workers each run
`attempt_claim_by_bid` exactly once, in any sequential order `w :: ws`,
then exactly the first claim returns the (post-update) row and all later
claims return nothing; afterwards the row is `processing` with
`lock_owner` set to the one successful worker, and every row of the final
table with `status = 'processing'` has a non-null `lock_owner`. -/
theorem C2_at_most_one_claim_succeeds (r : BidRow) (bid w : String)
    (ws : List String) (now : Nat) (hb : r.bid_number = bid)
    (ht : r.todayscan = 0) (hs : r.status = "queued") :
    (claimSeq (w :: ws) [r] bid now).2 =
      some (claimUpdate w now r) :: List.replicate ws.length none ∧
    (claimSeq (w :: ws) [r] bid now).1 = [claimUpdate w now r] ∧
    (claimUpdate w now r).locked_by = some w ∧
    (claimUpdate w now r).status = "processing" ∧
    (∀ r' ∈ (claimSeq (w :: ws) [r] bid now).1,
      r'.status = "processing" → r'.locked_by.isSome = true) := by
  have hmatch : claimMatches bid r = true := by simp [claimMatches, hb, ht, hs]
  have hfirst := @attempt_claim_single_success r bid w now hmatch
  have hrest := claimSeq_all_rejected ws bid now (claimUpdate w now r)
    (claimMatches_claimUpdate bid w now r)
  refine ⟨?_, ?_, by simp [claimUpdate], by simp [claimUpdate], ?_⟩
  · simp [claimSeq, hfirst, hrest]
  · simp [claimSeq, hfirst, hrest]
  · intro r' hr' _
    simp [claimSeq, hfirst, hrest] at hr'
    subst hr'
    simp [claimUpdate]

/-- Witness for C2: three workers race on a seeded queued row; the first
claim succeeds, the other two are rejected. -/
theorem C2_witness :
    freshRow.bid_number = "B1" ∧ freshRow.todayscan = 0 ∧
    ({ freshRow with status := "queued" } : BidRow).status = "queued" ∧
    ((claimSeq ["w1", "w2", "w3"] [{ freshRow with status := "queued" }] "B1" 7).2 =
        some (claimUpdate "w1" 7 { freshRow with status := "queued" }) ::
          List.replicate 2 none ∧
      (claimSeq ["w1", "w2", "w3"] [{ freshRow with status := "queued" }] "B1" 7).1 =
        [claimUpdate "w1" 7 { freshRow with status := "queued" }] ∧
      (claimUpdate "w1" 7 { freshRow with status := "queued" }).locked_by = some "w1" ∧
      (claimUpdate "w1" 7 { freshRow with status := "queued" }).status = "processing" ∧
      (∀ r' ∈ (claimSeq ["w1", "w2", "w3"]
          [{ freshRow with status := "queued" }] "B1" 7).1,
        r'.status = "processing" → r'.locked_by.isSome = true)) :=
  ⟨by decide, by decide, by decide,
    C2_at_most_one_claim_succeeds { freshRow with status := "queued" } "B1" "w1"
      ["w2", "w3"] 7 (by decide) (by decide) (by decide)⟩

/-- C5: claiming is an idempotent no-op on non-claimable items.
(1) If every row carrying the requested business key has `status = 'done'`,
`attempt_claim_by_bid` returns nothing and leaves the table unchanged.
(2) When the claim of a descriptor fails, `process_task` performs no
further side effects at all: no download, no parse, no Work Store write,
and no exception. (3) After one successful claim of a single-row table,
any further claim of the same business key returns nothing and leaves the
table unchanged, so duplicate delivery yields one processing and the rest
no-ops. -/
theorem C5_claim_idempotent_noop :
    (∀ (table : List BidRow) (bid owner : String) (now : Nat),
      (∀ r ∈ table, r.bid_number = bid → r.status = "done") →
      attempt_claim_by_bid table bid owner now = (table, none)) ∧
    (∀ env : TaskEnv, env.claimResult = none → process_task env = ([], none)) ∧
    (∀ (r : BidRow) (bid owner owner2 : String) (now now2 : Nat),
      claimMatches bid r = true →
      attempt_claim_by_bid ((attempt_claim_by_bid [r] bid owner now).1)
          bid owner2 now2 =
        ((attempt_claim_by_bid [r] bid owner now).1, none)) := by
  refine ⟨?_, ?_, ?_⟩
  · intro table bid owner now h
    refine attempt_claim_of_no_match owner now ?_
    intro r hr
    by_cases hb : r.bid_number = bid
    · have hd := h r hr hb
      simp [claimMatches, hd]
    · simp [claimMatches, hb]
  · intro env h
    simp [process_task, h]
  · intro r bid owner owner2 now now2 hm
    rw [attempt_claim_single_success owner now hm]
    refine attempt_claim_of_no_match owner2 now2 ?_
    intro x hx
    simp only [List.mem_singleton] at hx
    subst hx
    exact claimMatches_claimUpdate bid owner now r

/-- Witness for C5: a done row is never claimed; a rejected descriptor
produces no events; a duplicate claim after a successful one is a no-op. -/
theorem C5_witness :
    attempt_claim_by_bid [{ freshRow with status := "done" }] "B1" "w1" 0 =
      ([{ freshRow with status := "done" }], none) ∧
    process_task envClaimRejected = ([], none) ∧
    attempt_claim_by_bid ((attempt_claim_by_bid [freshRow] "B1" "w1" 0).1)
        "B1" "w2" 1 =
      ((attempt_claim_by_bid [freshRow] "B1" "w1" 0).1, none) :=
  ⟨C5_claim_idempotent_noop.1 _ "B1" "w1" 0 (by decide),
   C5_claim_idempotent_noop.2.1 envClaimRejected (by decide),
   C5_claim_idempotent_noop.2.2 freshRow "B1" "w1" "w2" 0 1 (by decide)⟩

/-- C4 counterexample: the claim states that EVERY exception after a
successful claim leads to `mark_failed` before the loop continues. In the
environment `envOutDirFails` the claim has succeeded, but the unguarded
`os.makedirs(os.path.dirname(json_out_path))` raises: `process_task`
propagates the exception without any terminal Work Store write, and
`run_worker`'s catch-all continues the loop without calling `mark_failed`
— the row is left at `status = 'processing'`. -/
theorem C4_counterexample_unguarded_makedirs :
    envOutDirFails.claimResult.isSome = true ∧
    process_task envOutDirFails = ([.download], some "makedirs_output_folder") ∧
    (run_worker_step_calls envOutDirFails).any isTerminalWrite = false := by
  decide

/-- C4 amended: for every environment in which the claim succeeded and no
exception escapes `process_task` uncaught (in particular for each of the
guarded stages: download failure, parser missing, parser exception,
parser bad result, parser-reported failure, and DB persist failure),
the run ends with a terminal Work Store write: `mark_failed` for some
reason, or `mark_done`. -/
theorem C4_guarded_stages_mark_failed (env : TaskEnv)
    (hclaim : env.claimResult.isSome = true)
    (hnoexc : (process_task env).2 = none) :
    (∃ reason, WorkerEvent.markFailed reason ∈ (process_task env).1) ∨
      WorkerEvent.markDone ∈ (process_task env).1 := by
  obtain ⟨cr, pdf, dl, msg, imp, od, po, pe⟩ := env
  cases cr with
  | none => simp at hclaim
  | some row =>
    cases pdf <;> cases dl <;> cases imp <;> cases od <;>
      rcases po with e | _ | ⟨ok2, msg2⟩ <;>
      rcases pe with _ | e1 | e2 <;>
      first
        | (cases ok2 <;> simp_all [process_task])
        | simp_all [process_task]

/-- Witness for C4 amended: a failed download after a successful claim
ends in a `mark_failed` (or `mark_done`) terminal write. -/
theorem C4_guarded_stages_witness :
    envDownloadFails.claimResult.isSome = true ∧
    (process_task envDownloadFails).2 = none ∧
    ((∃ reason, WorkerEvent.markFailed reason ∈ (process_task envDownloadFails).1) ∨
      WorkerEvent.markDone ∈ (process_task envDownloadFails).1) :=
  ⟨by decide, by decide,
   C4_guarded_stages_mark_failed envDownloadFails (by decide) (by decide)⟩

/-- A selected row is a row of the table. -/
lemma mem_of_mem_selectBatch {table : List BidRow} {n : Nat} {r : BidRow}
    (h : r ∈ selectBatch table n) : r ∈ table :=
  (List.filter_sublist table).subset ((List.take_sublist n _).subset h)

/-- Selected rows satisfy the selection condition `todayscan = 0`. -/
lemma todayscan_of_mem_selectBatch {table : List BidRow} {n : Nat} {r : BidRow}
    (h : r ∈ selectBatch table n) : r.todayscan = 0 := by
  have h1 := (List.take_sublist n _).subset h
  simpa using (List.mem_filter.mp h1).2

/-- With pairwise-distinct `id`s in the table, a table row's `id` occurs
among the selected ids exactly when the row itself was selected. -/
lemma id_mem_selected_iff {table : List BidRow} {n : Nat}
    (hN : (table.map (·.id)).Nodup) {r : BidRow} (hr : r ∈ table) :
    ((selectBatch table n).map (·.id)).contains r.id = true ↔
      r ∈ selectBatch table n := by
  constructor
  · intro h
    have h1 : r.id ∈ (selectBatch table n).map (·.id) := by simpa using h
    obtain ⟨r', hr', hid⟩ := List.mem_map.mp h1
    have : r' = r :=
      List.inj_on_of_nodup_map hN (mem_of_mem_selectBatch hr') hr hid
    exact this ▸ hr'
  · intro h
    simpa using List.mem_map.mpr ⟨r, h, rfl⟩

/-- With pairwise-distinct ids, the marking UPDATE of
`fetch_and_mark_batch` hits exactly the selected rows. -/
lemma fetch_and_mark_batch_eq {table : List BidRow} {n : Nat}
    (hN : (table.map (·.id)).Nodup) (hne : selectBatch table n ≠ []) :
    fetch_and_mark_batch table n =
      (table.map fun r =>
        if r ∈ selectBatch table n then markQueued r else r,
       selectBatch table n) := by
  unfold fetch_and_mark_batch
  rw [if_neg hne]
  refine Prod.ext ?_ rfl
  refine List.map_congr_left ?_
  intro r hr
  by_cases hm : r ∈ selectBatch table n
  · rw [if_pos ((id_mem_selected_iff (n := n) hN hr).mpr hm), if_pos hm]
  · rw [if_neg ?_, if_neg hm]
    intro hc
    exact hm ((id_mem_selected_iff (n := n) hN hr).mp hc)

/-- C6: the frame of `fetch_and_mark_batch`. (1) A selection that matches
no row gives an empty selection; (2) when the selection is empty the call
returns an empty result and the table completely unchanged (rollback);
(3) otherwise (with pairwise-distinct ids) exactly the returned rows are
updated to `todayscan = QUEUED_TODAYSCAN, status = 'queued'` and every
other row is untouched. -/
theorem C6_fetch_and_mark_batch_frame (table : List BidRow) (n : Nat) :
    ((∀ r ∈ table, r.todayscan ≠ 0) → selectBatch table n = []) ∧
    (selectBatch table n = [] → fetch_and_mark_batch table n = (table, [])) ∧
    ((table.map (·.id)).Nodup → selectBatch table n ≠ [] →
      fetch_and_mark_batch table n =
        (table.map fun r =>
          if r ∈ selectBatch table n then markQueued r else r,
         selectBatch table n)) := by
  refine ⟨?_, ?_, fun hN hne => fetch_and_mark_batch_eq hN hne⟩
  · intro h
    unfold selectBatch
    have : table.filter (fun r => r.todayscan == 0) = [] :=
      List.filter_eq_nil_iff.mpr (by intro r hr; simpa using h r hr)
    simp [this]
  · intro h
    unfold fetch_and_mark_batch
    rw [if_pos h]

/-- Witness for C6: a table whose only row is already queued by the
producer yields an empty selection and no change; a fresh single-row
table has its one row selected and marked. -/
theorem C6_witness :
    (∀ r ∈ [markQueued freshRow], r.todayscan ≠ 0) ∧
    selectBatch [markQueued freshRow] 5 = [] ∧
    fetch_and_mark_batch [markQueued freshRow] 5 = ([markQueued freshRow], []) ∧
    ([freshRow].map (·.id)).Nodup ∧ selectBatch [freshRow] 5 ≠ [] ∧
    fetch_and_mark_batch [freshRow] 5 =
      ([freshRow].map fun r =>
        if r ∈ selectBatch [freshRow] 5 then markQueued r else r,
       selectBatch [freshRow] 5) :=
  ⟨by decide, (C6_fetch_and_mark_batch_frame [markQueued freshRow] 5).1 (by decide),
   (C6_fetch_and_mark_batch_frame [markQueued freshRow] 5).2.1
     ((C6_fetch_and_mark_batch_frame [markQueued freshRow] 5).1 (by decide)),
   by decide, by decide,
   (C6_fetch_and_mark_batch_frame [freshRow] 5).2.2 (by decide) (by decide)⟩

/-- C3 counterexample: the round trip is not the identity on the Work
Store. `fetch_and_mark_batch` selects by `todayscan = 0` alone, so it also
picks up a retryable failed row (`todayscan = 0, status = 'failed'`);
after the failed publish, `revert_rows_to_new` sets that row to
`status = 'new'`, not back to its original `'failed'`. -/
theorem C3_counterexample_failed_row_becomes_new :
    failedRow.todayscan = 0 ∧ failedRow.status = "failed" ∧
    producer_iter_failed_publish [failedRow] 1 =
      [{ failedRow with status := "new" }] ∧
    producer_iter_failed_publish [failedRow] 1 ≠ [failedRow] := by
  decide

/-- C3 amended: after `fetch_and_mark_batch` followed by a failed publish
and `revert_rows_to_new`, every selected row ends at
`todayscan = 0, status = 'new'` (eligible again) and every other row is
unchanged; the round trip is the identity exactly on tables whose
selected rows all had `status = 'new'` originally. -/
theorem C3_producer_compensation (table : List BidRow) (n : Nat)
    (hN : (table.map (·.id)).Nodup) (hne : selectBatch table n ≠ []) :
    producer_iter_failed_publish table n =
      table.map (fun r =>
        if r ∈ selectBatch table n then
          { r with todayscan := 0, status := "new" }
        else r) ∧
    ((∀ r ∈ selectBatch table n, r.status = "new") →
      producer_iter_failed_publish table n = table) := by
  have hfm := fetch_and_mark_batch_eq hN hne
  have hids : (selectBatch table n).map (·.id) ≠ [] := by
    simpa using hne
  have hmain : producer_iter_failed_publish table n =
      table.map (fun r =>
        if r ∈ selectBatch table n then
          { r with todayscan := 0, status := "new" }
        else r) := by
    unfold producer_iter_failed_publish
    rw [hfm]
    dsimp only
    rw [if_neg hne]
    unfold revert_rows_to_new
    rw [if_neg hids]
    rw [List.map_map]
    refine List.map_congr_left ?_
    intro r hr
    by_cases hm : r ∈ selectBatch table n
    · have hc : ((selectBatch table n).map (·.id)).contains
          (markQueued r).id = true :=
        (id_mem_selected_iff (n := n) hN hr).mpr hm
      simp only [Function.comp_apply, if_pos hm, hc, if_pos]
      rfl
    · have hc : ((selectBatch table n).map (·.id)).contains r.id = false := by
        rw [Bool.eq_false_iff]
        intro h
        exact hm ((id_mem_selected_iff (n := n) hN hr).mp h)
      simp only [Function.comp_apply, if_neg hm, hc]
      rfl
  refine ⟨hmain, ?_⟩
  intro hnew
  rw [hmain]
  have : ∀ r ∈ table,
      (if r ∈ selectBatch table n then
        ({ r with todayscan := 0, status := "new" } : BidRow)
      else r) = r := by
    intro r hr
    by_cases hm : r ∈ selectBatch table n
    · rw [if_pos hm]
      have ht := todayscan_of_mem_selectBatch hm
      have hs := hnew r hm
      cases r
      simp_all
    · rw [if_neg hm]
  simpa using List.map_congr_left this

/-- Witness for C3 amended: a single fresh row is selected, the publish
fails, and the row is back to exactly its original state. -/
theorem C3_producer_compensation_witness :
    ([freshRow].map (·.id)).Nodup ∧ selectBatch [freshRow] 1 ≠ [] ∧
    (producer_iter_failed_publish [freshRow] 1 =
      [freshRow].map (fun r =>
        if r ∈ selectBatch [freshRow] 1 then
          { r with todayscan := 0, status := "new" }
        else r) ∧
    ((∀ r ∈ selectBatch [freshRow] 1, r.status = "new") →
      producer_iter_failed_publish [freshRow] 1 = [freshRow])) :=
  ⟨by decide, by decide, C3_producer_compensation [freshRow] 1 (by decide) (by decide)⟩

/-- `enqueue_batch` prepends the batch in reverse: the Redis list grows
at its left end. -/
lemma enqueue_batch_eq (q tasks : List TaskDescriptor) :
    enqueue_batch q tasks = tasks.reverse ++ q := by
  induction tasks generalizing q with
  | nil => simp [enqueue_batch]
  | cons t ts ih =>
    simp only [enqueue_batch, List.foldl_cons, List.reverse_cons]
    rw [show List.foldl lpush (lpush q t) ts = enqueue_batch (lpush q t) ts from rfl]
    rw [ih]
    simp [lpush]

/-- C7: the list-mode queue transport is FIFO with a bounded blocking
pop. (1) A blocking pop on a queue that stays empty for the timeout
returns no task. (2) `enqueue_batch` appends the batch to the delivery
order: popping everything yields the previously queued descriptors first
(in their order) and then the batch in batch order. (3) Each single
blocking pop returns exactly the earliest still-queued descriptor (the
head of the delivery order), leaving the rest queued. -/
theorem C7_list_queue_fifo :
    pop_task [] = (none, []) ∧
    (∀ q tasks : List TaskDescriptor,
      popAll (enqueue_batch q tasks) = popAll q ++ tasks) ∧
    (∀ q : List TaskDescriptor,
      pop_task q = ((popAll q).head?, (popAll q).tail.reverse)) := by
  refine ⟨rfl, ?_, ?_⟩
  · intro q tasks
    rw [enqueue_batch_eq]
    simp [popAll]
  · intro q
    unfold pop_task popAll
    cases h : q.getLast? with
    | none =>
      have : q = [] := by simpa using h
      subst this
      simp
    | some t =>
      rw [← List.head?_reverse] at h
      rw [h]
      simp

/-- If some attempt succeeds, the retry loop stops at the first success
with a single atomic replace and returns `true`. -/
lemma atomicWriteLoop_of_mem_ok (l : List AttemptOutcome) (b : Bool)
    (h : AttemptOutcome.ok ∈ l) :
    atomicWriteLoop l b = (true, [.atomicReplace]) := by
  induction l with
  | nil => simp at h
  | cons o rest ih =>
    cases o with
    | ok => rfl
    | tmpFail =>
      have : AttemptOutcome.ok ∈ rest := by simpa using h
      simpa [atomicWriteLoop] using ih this
    | replaceFail =>
      have : AttemptOutcome.ok ∈ rest := by simpa using h
      simpa [atomicWriteLoop] using ih this

/-- If no attempt succeeds, the loop exhausts the retries and performs
the last-resort plain overwrite. -/
lemma atomicWriteLoop_of_no_ok (l : List AttemptOutcome) (b : Bool)
    (h : ∀ o ∈ l, o ≠ AttemptOutcome.ok) :
    atomicWriteLoop l b = (b, [.plainOverwrite]) := by
  induction l with
  | nil => rfl
  | cons o rest ih =>
    cases o with
    | ok => exact absurd rfl (h .ok (by simp))
    | tmpFail => simpa [atomicWriteLoop] using ih (fun o ho => h o (by simp [ho]))
    | replaceFail => simpa [atomicWriteLoop] using ih (fun o ho => h o (by simp [ho]))

/-- C8 counterexample: when `os.replace` keeps failing (e.g. the target
stays locked), `_atomic_write` does not give up after its bounded
retries — it falls back to a plain `open(path, "w")` overwrite, a
non-atomic in-place truncation of the target under which a concurrent
reader can observe a partially-written document; it even reports
success. -/
theorem C8_counterexample_nonatomic_fallback :
    _atomic_write allReplaceFail true = (true, [.plainOverwrite]) ∧
    WriteEvent.plainOverwrite ∈ (_atomic_write allReplaceFail true).2 ∧
    (∀ e ∈ (_atomic_write allReplaceFail true).2, e ≠ .atomicReplace) := by
  decide

/-- C8 amended: `_atomic_write` persists via a single atomic
temp-file-plus-rename replacement whenever any of its
`_RETRY_ATTEMPTS = 12` bounded retries succeeds (so a reader never sees a
partial document on that path), and only after all retries fail does it
fall back to one plain non-atomic overwrite whose success becomes the
returned boolean. -/
theorem C8_atomic_write_behaviour (outcomes : Nat → AttemptOutcome)
    (overwriteOk : Bool) :
    ((∃ i < RETRY_ATTEMPTS, outcomes i = .ok) →
      _atomic_write outcomes overwriteOk = (true, [.atomicReplace])) ∧
    ((∀ i < RETRY_ATTEMPTS, outcomes i ≠ .ok) →
      _atomic_write outcomes overwriteOk = (overwriteOk, [.plainOverwrite])) := by
  constructor
  · rintro ⟨i, hi, hok⟩
    refine atomicWriteLoop_of_mem_ok _ _ ?_
    rw [← hok]
    exact List.mem_map.mpr ⟨i, List.mem_range.mpr hi, rfl⟩
  · intro h
    refine atomicWriteLoop_of_no_ok _ _ ?_
    intro o ho
    obtain ⟨i, hi, rfl⟩ := List.mem_map.mp ho
    exact h i (List.mem_range.mp hi)

/-- Witness for C8 amended: with a first-try success the write is one
atomic replace; with every replace failing it is one plain overwrite. -/
theorem C8_atomic_write_witness :
    (∃ i < RETRY_ATTEMPTS, allOk i = .ok) ∧
    _atomic_write allOk true = (true, [.atomicReplace]) ∧
    (∀ i < RETRY_ATTEMPTS, allReplaceFail i ≠ .ok) ∧
    _atomic_write allReplaceFail false = (false, [.plainOverwrite]) :=
  ⟨⟨0, by decide, rfl⟩,
   (C8_atomic_write_behaviour allOk true).1 ⟨0, by decide, rfl⟩,
   fun i _ => by simp [allReplaceFail],
   (C8_atomic_write_behaviour allReplaceFail false).2
     (fun i _ => by simp [allReplaceFail])⟩

/-- Looking up the key just assigned returns the assigned value. -/
lemma dictGet_dictSet_self (d : JDict) (k : String) (v : JVal) :
    dictGet (dictSet d k v) k = some v := by
  induction d with
  | nil => simp [dictSet, dictGet, List.find?]
  | cons p rest ih =>
    by_cases hp : p.1 == k
    · simp [dictSet, hp, dictGet, List.find?]
    · simp only [dictSet, hp, Bool.false_eq_true, if_false]
      simp only [dictGet, List.find?, hp] at ih ⊢
      exact ih

/-- Assigning one key leaves lookups of any other key unchanged. -/
lemma dictGet_dictSet_ne (d : JDict) {k k' : String} (v : JVal)
    (h : k' ≠ k) :
    dictGet (dictSet d k v) k' = dictGet d k' := by
  have hbeq : (k == k') = false := by
    simpa using fun he => h he.symm
  induction d with
  | nil => simp [dictSet, dictGet, List.find?, hbeq]
  | cons p rest ih =>
    by_cases hp : p.1 == k
    · have hp' : (p.1 == k') = false := by
        have : p.1 = k := by simpa using hp
        simpa [this] using fun he => h he.symm
      simp [dictSet, hp, dictGet, List.find?, hbeq, hp']
    · simp only [dictSet, hp, Bool.false_eq_true, if_false]
      by_cases hq : p.1 == k'
      · simp [dictGet, List.find?, hq]
      · simp only [dictGet, List.find?, hq] at ih ⊢
        exact ih

/-- The `last_updated` stamp does not disturb the `recent` field. -/
lemma dictGet_recent_stamp (d : JDict) (now : String) :
    dictGet (stampLastUpdated now d) "recent" = dictGet d "recent" := by
  exact dictGet_dictSet_ne d _ (by decide)

/-- C9 counterexample: with cap `max_items = 0`, `rec[:max_items]` is
empty, so the stored `recent` list does not have the new item at
index 0 — the pushed event is dropped entirely. -/
theorem C9_counterexample_cap_zero :
    push_recent_written_doc .missing item0 0 "T" "N" =
      some [("recent", .jarr []), ("last_updated", .jstr "N")] ∧
    (∀ doc, push_recent_written_doc .missing item0 0 "T" "N" = some doc →
      dictGet doc "recent" = some (.jarr [])) ∧
    JVal.jarr [] ≠ .jarr [JVal.jobj (stampTs "T" item0)] := by
  refine ⟨rfl, ?_, by simp⟩
  intro doc h
  have h0 : push_recent_written_doc .missing item0 0 "T" "N" =
      some [("recent", JVal.jarr []), ("last_updated", JVal.jstr "N")] := rfl
  rw [h0] at h
  cases h
  rfl

/-- C9 amended: for every well-shaped prior document (a JSON object whose
`recent` field is absent or a list `xs`), every event item, and every cap
`max_items ≥ 1`, the stored `recent` list is the `ts`-stamped new item at
index 0 followed by the first `max_items - 1` previous events in their
prior order, and its length is at most `max_items`. (For `max_items = 0`
the stored list is empty instead.) -/
theorem C9_push_recent_capped_head_append (fs : FileState) (d item : JDict)
    (xs : List JVal) (cap : Nat) (tsNow now : String)
    (hread : read_status fs = .jobj d)
    (hrec : dictGet d "recent" = some (.jarr xs) ∨
      (dictGet d "recent" = none ∧ xs = []))
    (hcap : 1 ≤ cap) :
    ∃ doc, push_recent_written_doc fs item cap tsNow now = some doc ∧
      dictGet doc "recent" =
        some (.jarr (JVal.jobj (stampTs tsNow item) :: xs.take (cap - 1))) ∧
      (JVal.jobj (stampTs tsNow item) :: xs.take (cap - 1)).length ≤ cap := by
  obtain ⟨c, rfl⟩ : ∃ c, cap = c + 1 := ⟨cap - 1, by omega⟩
  have hc1 : c + 1 - 1 = c := by omega
  have hlen : (JVal.jobj (stampTs tsNow item) :: xs.take (c + 1 - 1)).length
      ≤ c + 1 := by
    simp only [hc1, List.length_cons, List.length_take]
    omega
  unfold push_recent_written_doc
  rw [hread]
  dsimp only
  rcases hrec with h | ⟨h, rfl⟩
  · rw [h]
    refine ⟨_, rfl, ?_, hlen⟩
    rw [dictGet_recent_stamp, dictGet_dictSet_self, hc1, List.take_succ_cons]
  · rw [h]
    refine ⟨_, rfl, ?_, hlen⟩
    rw [dictGet_recent_stamp, dictGet_dictSet_self, hc1]
    simp

/-- Witness for C9 amended: pushing onto a missing document with the
default cap 80 stores the stamped item at index 0. -/
theorem C9_push_recent_witness :
    read_status .missing = .jobj [] ∧
    (dictGet [] "recent" = some (.jarr []) ∨
      (dictGet ([] : JDict) "recent" = none ∧ ([] : List JVal) = [])) ∧
    1 ≤ 80 ∧
    (∃ doc, push_recent_written_doc .missing item0 80 "T" "N" = some doc ∧
      dictGet doc "recent" =
        some (.jarr (JVal.jobj (stampTs "T" item0) ::
          ([] : List JVal).take (80 - 1))) ∧
      (JVal.jobj (stampTs "T" item0) ::
        ([] : List JVal).take (80 - 1)).length ≤ 80) :=
  ⟨rfl, Or.inr ⟨rfl, rfl⟩, by decide,
   C9_push_recent_capped_head_append .missing [] item0 [] 80 "T" "N" rfl
     (Or.inr ⟨rfl, rfl⟩) (by decide)⟩

/-- C10: reading the status document never fails and a corrupt document
silently resets the counters. `read_status` returns the empty document
both when the file is missing and when its contents are unparsable, and
`increment` on such a state treats the absent counter as 0, persisting a
document whose counter equals exactly the delta (alongside the
`last_updated` stamp `_safe_write` adds, so any counter key other than
`last_updated` itself). -/
theorem C10_read_status_tolerant_and_increment_resets (fs : FileState)
    (key : String) (delta : Int) (now : String)
    (hfs : fs = .missing ∨ fs = .unparsable) (hk : key ≠ "last_updated") :
    read_status fs = .jobj [] ∧
    increment_written_doc fs key delta now =
      some [(key, .jnum delta), ("last_updated", .jstr now)] ∧
    dictGet [(key, JVal.jnum delta), ("last_updated", JVal.jstr now)] key =
      some (.jnum delta) := by
  have hbeq : (key == "last_updated") = false := by simpa using hk
  rcases hfs with rfl | rfl <;>
    refine ⟨rfl, ?_, ?_⟩ <;>
    simp [increment_written_doc, read_status, dictGet, dictSet,
      stampLastUpdated, hbeq, List.find?]

/-- Witness for C10: incrementing `done` by 3 on an unparsable status
file yields a document where `done = 3`. -/
theorem C10_witness :
    (FileState.unparsable = FileState.missing ∨
      FileState.unparsable = FileState.unparsable) ∧
    "done" ≠ "last_updated" ∧
    (read_status .unparsable = .jobj [] ∧
      increment_written_doc .unparsable "done" 3 "N" =
        some [("done", .jnum 3), ("last_updated", .jstr "N")] ∧
      dictGet [("done", JVal.jnum 3), ("last_updated", JVal.jstr "N")] "done" =
        some (.jnum 3)) :=
  ⟨Or.inr rfl, by decide,
   C10_read_status_tolerant_and_increment_resets .unparsable "done" 3 "N"
     (Or.inr rfl) (by decide)⟩

end GemExtracter
